import Mathlib

/-!
Verification of the event-aggregation and coverage-merge core of the test
reporter in src/src/reporters/Reporter.ts.

The reporter state, its event handlers (suiteStart, suiteEnd, testPass,
testSkip, testFail, coverage) and the finalization step (_writeCoverage,
runEnd) are embedded as executable Lean functions.  Terminal colours and
the floating-point seconds formatting of error lines are dropped; no claim
depends on them.  A thrown JavaScript exception is modelled as the error
case of an Except value.
-/

/-- Coverage data: counts keyed by instrumented-file path.
Modelled from the spec: the istanbul collector is an external collaborator
and this core treats a snapshot as an opaque mergeable blob whose merge
adds counts per file key (spec section 3, Coverage Snapshot). -/
def Cov : Type := String → Nat

/-- The empty collector (new Collector()). -/
def covZero : Cov := fun _ => 0

/-- collector.add: per-file counts add up (external collaborator,
modelled from the spec: later snapshots add to prior counts). -/
def covAdd (a b : Cov) : Cov := fun k => a k + b k

/-- A node of the suite/test tree exactly as the recursive hasError walk
inside suiteEnd sees it: a test leaf has no tests field; a suite node
carries its own optional terminal error (modelled as a Bool: an error is
present or not, which is all the truthiness test uses) and its ordered
children (which may be nested suites or tests). -/
inductive TNode where
  | test (error : Bool)
  | suite (error : Bool) (tests : List TNode)

mutual
/-- The hasError recursion from suiteEnd (Reporter.ts lines 129-131):
`suite.tests ? (suite.error || suite.tests.some(hasError)) : false`.
A node without a tests field — a test leaf — yields false regardless of
its own error. -/
def nodeHasError : TNode → Bool
  | .test _ => false
  | .suite e ts => e || listHasError ts
def listHasError : List TNode → Bool
  | [] => false
  | n :: ns => nodeHasError n || listHasError ns
end

mutual
/-- Follows the wording of the claim, for comparison with nodeHasError:
the node itself or any descendant test carries a terminal error. -/
def specNodeHasError : TNode → Bool
  | .test e => e
  | .suite e ts => e || specListHasError ts
def specListHasError : List TNode → Bool
  | [] => false
  | n :: ns => specNodeHasError n || specListHasError ns
end

/-- The subset of a host Suite object this core reads: identity, parent
presence, the three aggregate counters (computed by the host), the
optional suite-level terminal error, and the children array used by the
hasError walk. -/
structure Suite where
  name : String
  sessionId : String
  hasParent : Bool
  numTests : Nat
  numFailedTests : Nat
  numSkippedTests : Nat
  error : Bool
  tests : List TNode

/-- The subset of a host Test object read by testFail.  The error field
holds the formatted message (util.getErrorMessage is an external helper,
modelled from the spec as producing the formatted error message). -/
structure Test where
  id : String
  sessionId : String
  timeElapsed : Nat
  error : String
  deriving DecidableEq

/-- One Error Ledger entry, as pushed by testFail (lines 153-157). -/
structure ErrorEntry where
  id : String
  timeElapsed : Nat
  error : String
  deriving DecidableEq

/-- A value of this.sessions: `{ suite: suite }`, with the coverage flag
set later by the coverage handler (absent = false). -/
structure SessionEntry where
  suite : Suite
  coverage : Bool

/-- The reporter's mutable state: _mode, _filename, _collector, _errors,
the inherited sessions registry, and the inherited hasErrors flag set by
the host on a fatal run error. -/
structure ReporterState where
  mode : String
  filename : String
  collector : Cov
  errors : List (String × List ErrorEntry)
  sessions : List (String × SessionEntry)
  hasErrors : Bool

/-- JavaScript object lookup on a string-keyed association list. -/
def lookupA {α : Type} : List (String × α) → String → Option α
  | [], _ => none
  | (k, v) :: t, s => if k = s then some v else lookupA t s

/-- JavaScript object assignment: overwrite the entry in place if the key
exists, otherwise append a new entry. -/
def insertA {α : Type} : List (String × α) → String → α → List (String × α)
  | [], k, v => [(k, v)]
  | (k', v') :: t, k, v => if k' = k then (k, v) :: t else (k', v') :: insertA t k v

/-- testFail's ledger update: create the per-session list on first use,
then push the entry at the end (lines 149-157). -/
def pushError : List (String × List ErrorEntry) → String → ErrorEntry → List (String × List ErrorEntry)
  | [], k, e => [(k, [e])]
  | (k', es) :: t, k, e =>
    if k' = k then (k', es ++ [e]) :: t else (k', es) :: pushError t k e

/-- Keys of the sessions registry. -/
def sessionKeys (st : ReporterState) : List String := st.sessions.map Prod.fst

/-- Keys of the Error Ledger. -/
def errKeys (st : ReporterState) : List String := st.errors.map Prod.fst

/-- The events the host engine delivers to this core.  testPass and
testSkip carry no data this core reads (they only write a glyph). -/
inductive Event where
  | suiteStart (s : Suite)
  | suiteEnd (s : Suite)
  | testPass
  | testSkip
  | testFail (t : Test)
  | coverage (sessionId : String) (snapshot : Cov)

/-- suiteStart (lines 112-119): a parentless suite is registered under
`suite.sessionId || ''` (the identity on strings), overwriting any
existing entry; a suite with a parent changes no state. -/
def suiteStart (st : ReporterState) (s : Suite) : ReporterState :=
  if s.hasParent then st
  else { st with sessions := insertA st.sessions s.sessionId { suite := s, coverage := false } }

/-- The console lines printed by suiteStart: the informational line is
emitted only for a parentless suite with a truthy (non-empty) session
identifier (lines 115-117). -/
def suiteStartOutput (s : Suite) : List String :=
  if s.hasParent then []
  else if s.sessionId = "" then []
  else ["\n‣ Created session " ++ s.name ++ " (" ++ s.sessionId ++ ")"]

/-- The entry testFail builds from a Test (lines 153-157). -/
def entryOfTest (t : Test) : ErrorEntry :=
  { id := t.id, timeElapsed := t.timeElapsed, error := t.error }

/-- testFail (lines 148-160): append the entry to the session's ledger
list (the glyph written to the output stream is not part of the state). -/
def testFail (st : ReporterState) (t : Test) : ReporterState :=
  { st with errors := pushError st.errors t.sessionId (entryOfTest t) }

/-- The coverage handler (lines 61-67).  The guard is
`this._mode === 'client' || sessionId`; in the accepted branch the code
dereferences `this.sessions[sessionId || '']` (`sessionId || ''` is the
identity on strings) and a missing registration throws — Except.error.
The rejected branch falls through with no state change. -/
def coverage (st : ReporterState) (sessionId : String) (snapshot : Cov) :
    Except Unit ReporterState :=
  if st.mode = "client" ∨ sessionId ≠ "" then
    match lookupA st.sessions sessionId with
    | none => .error ()
    | some entry =>
      .ok { st with
              sessions := insertA st.sessions sessionId { entry with coverage := true },
              collector := covAdd st.collector snapshot }
  else .ok st

/-- One event step of the reporter state.  Only the coverage handler can
throw; every other handler is total. -/
def applyEvent (st : ReporterState) (e : Event) : Except Unit ReporterState :=
  match e with
  | .suiteStart s => .ok (suiteStart st s)
  | .suiteEnd _ => .ok st
  | .testPass => .ok st
  | .testSkip => .ok st
  | .testFail t => .ok (testFail st t)
  | .coverage sid c => coverage st sid c

/-- Process a sequence of delivered events; a thrown exception aborts the
rest of the run. -/
def processList : List Event → ReporterState → Except Unit ReporterState
  | [], st => .ok st
  | e :: es, st =>
    match applyEvent st e with
    | .ok st' => processList es st'
    | .error u => .error u

/-- The reporter's state right after the constructor (lines 25-39):
empty collector, empty ledger, empty registry, no fatal run error. -/
def initState (mode filename : String) : ReporterState :=
  { mode := mode, filename := filename, collector := covZero,
    errors := [], sessions := [], hasErrors := false }

/-- The suffix appended to a summary on a fatal error. -/
def fatalSuffix : String := "; fatal error occurred"

/-- Whether a rendered line ends with the fatal-error suffix. -/
def endsWithFatal (m : String) : Bool := fatalSuffix.data.isSuffixOf m.data

/-- hasError as suiteEnd applies it to the root suite: the root always
has a tests array, so the walk reads its own error then its children. -/
def rootHasError (s : Suite) : Bool := s.error || listHasError s.tests

/-- The claim's wording of the fatal condition, for comparison: the suite
itself or any descendant test carries a terminal error. -/
def specRootHasError (s : Suite) : Bool := s.error || specListHasError s.tests

/-- The summary line rendered by suiteEnd (lines 136-143):
"<name>: <failed>/<total> tests failed", plus " (<skipped> skipped)" when
the skipped count is truthy, plus the fatal suffix when hasError is
truthy. -/
def suiteEndSummary (s : Suite) : String :=
  let base := s.name ++ ": " ++ Nat.repr s.numFailedTests ++ "/"
      ++ Nat.repr s.numTests ++ " tests failed"
  let base2 := if s.numSkippedTests ≠ 0
      then base ++ " (" ++ Nat.repr s.numSkippedTests ++ " skipped)" else base
  if rootHasError s then base2 ++ fatalSuffix else base2

/-- suiteEnd (lines 121-146): returns none (no summary) for a suite with
a parent, in client mode, or without a session identifier; otherwise the
rendered summary line. -/
def suiteEndOutput (st : ReporterState) (s : Suite) : Option String :=
  if s.hasParent ∨ st.mode = "client" ∨ s.sessionId = "" then none
  else some (suiteEndSummary s)

/-- The four counters accumulated by the runEnd loop (lines 70-81). -/
structure Totals where
  numEnvironments : Nat
  numTests : Nat
  numFailedTests : Nat
  numSkippedTests : Nat
  deriving DecidableEq

/-- One iteration of the runEnd loop body (lines 77-80). -/
def totalsStep (acc : Totals) (p : String × SessionEntry) : Totals :=
  { numEnvironments := acc.numEnvironments + 1,
    numTests := acc.numTests + p.2.suite.numTests,
    numFailedTests := acc.numFailedTests + p.2.suite.numFailedTests,
    numSkippedTests := acc.numSkippedTests + p.2.suite.numSkippedTests }

/-- The runEnd loop over this.sessions (lines 75-81): one pass, adding
each registered session's root-suite counters. -/
def runEndTotals (st : ReporterState) : Totals :=
  st.sessions.foldl totalsStep
    { numEnvironments := 0, numTests := 0, numFailedTests := 0, numSkippedTests := 0 }

/-- The totals line built by runEnd (lines 98-105), colour dropped:
"\nTOTAL: tested <N> platforms, <F>/<T> failed", plus " (<S> skipped)"
when the skipped count is truthy, plus the fatal suffix when
`this.hasErrors && !numFailedTests`. -/
def runEndMessage (st : ReporterState) : String :=
  let t := runEndTotals st
  let m1 := "\nTOTAL: tested " ++ Nat.repr t.numEnvironments ++ " platforms, "
      ++ Nat.repr t.numFailedTests ++ "/" ++ Nat.repr t.numTests ++ " failed"
  let m2 := if t.numSkippedTests ≠ 0
      then m1 ++ " (" ++ Nat.repr t.numSkippedTests ++ " skipped)" else m1
  if st.hasErrors ∧ t.numFailedTests = 0 then m2 ++ fatalSuffix else m2

/-- The colour choice of the totals line (line 107):
`numFailedTests > 0 || this.hasErrors ? red : green`. -/
def runEndRed (st : ReporterState) : Bool :=
  decide (0 < (runEndTotals st).numFailedTests) || st.hasErrors

/-- The Error Ledger entries recorded for one session. -/
def errorsFor (st : ReporterState) (s : String) : List ErrorEntry :=
  (lookupA st.errors s).getD []

/-- The ledger entries rendered by the runEnd loop over this._errors
(lines 88-96), tagged with their session, in rendering order.  The
rendering of one entry (glyph, seconds, colours) is presentation detail;
the claims are about which entries appear and in which order. -/
def runEndRenderedErrors (st : ReporterState) : List (String × ErrorEntry) :=
  st.errors.flatMap (fun p => p.2.map (fun e => (p.1, e)))

/-- The rendered entries belonging to one session, in rendering order. -/
def renderedFor (st : ReporterState) (s : String) : List ErrorEntry :=
  (runEndRenderedErrors st).filterMap (fun q => if q.1 = s then some q.2 else none)

/-- The well-known default artifact name (line 14). -/
def DEFAULT_COVERAGE_FILENAME : String := "coverage-final.json"

/-- A file on disk is either a parseable coverage artifact or malformed
data on which JSON.parse throws. -/
inductive FileContent where
  | coverage (c : Cov)
  | malformed

/-- The filesystem: a readable file per path, or nothing (absent or
unreadable, which accessSync and readFileSync treat alike as a throw). -/
def Disk : Type := String → Option FileContent

/-- Writing a file. -/
def diskWrite (d : Disk) (p : String) (c : FileContent) : Disk :=
  fun q => if q = p then some c else d q

/-- The two exceptions _writeCoverage can let escape. -/
inductive WriteError where
  | readError
  | parseError
  deriving DecidableEq

/-- _writeCoverage (lines 41-59): checkCoverageFinal probes readability
of the well-known DEFAULT name; when it passes, the code reads and parses
the file at the configured `this._filename`, merges it into the
collector, and only then writes the report to `this._filename`.  A throw
from the read (file absent/unreadable) or from JSON.parse (malformed)
escapes before the write. -/
def writeCoverage (st : ReporterState) (disk : Disk) : Except WriteError Disk :=
  if (disk DEFAULT_COVERAGE_FILENAME).isSome then
    match disk st.filename with
    | none => .error .readError
    | some .malformed => .error .parseError
    | some (.coverage prior) =>
      .ok (diskWrite disk st.filename (.coverage (covAdd st.collector prior)))
  else
    .ok (diskWrite disk st.filename (.coverage st.collector))

/-- The escaped exception of a finalization, if any. -/
def wcResult (r : Except WriteError Disk) : Option WriteError :=
  match r with
  | .error e => some e
  | .ok _ => none

/-- The count recorded for one file key in the artifact written by a
finalization; none when finalization threw or wrote nothing readable. -/
def finalizeCounts (st : ReporterState) (disk : Disk) (k : String) : Option Nat :=
  match writeCoverage st disk with
  | .error _ => none
  | .ok d =>
    match d st.filename with
    | some (.coverage c) => some (c k)
    | _ => none

/-- A whole run: process the events from a fresh reporter, then read one
key of the finalized artifact. -/
def finalizeCountsOf (mode filename : String) (es : List Event) (disk : Disk)
    (k : String) : Option Nat :=
  match processList es (initState mode filename) with
  | .ok st => finalizeCounts st disk k
  | .error _ => none

/-- A whole run ending in the runEnd totals line. -/
def runMessageOf (mode filename : String) (es : List Event) : String :=
  match processList es (initState mode filename) with
  | .ok st => runEndMessage st
  | .error _ => ""

/-- The per-file sum of the snapshots a run delivers through the accepted
branch of the coverage guard (the guard only reads the mode and the
session identifier). -/
def sumAccepted (mode : String) (es : List Event) (k : String) : Nat :=
  (es.filterMap (fun e =>
    match e with
    | .coverage sid c => if mode = "client" ∨ sid ≠ "" then some (c k) else none
    | _ => none)).sum

/-- The entries the testFail events of a run report for one session, in
arrival order. -/
def failEntriesOf (es : List Event) (s : String) : List ErrorEntry :=
  es.filterMap (fun e =>
    match e with
    | .testFail t => if t.sessionId = s then some (entryOfTest t) else none
    | _ => none)

/-- Example root suite of session A: 10 tests, 1 failed, 0 skipped. -/
def suiteA : Suite :=
  { name := "a", sessionId := "A", hasParent := false,
    numTests := 10, numFailedTests := 1, numSkippedTests := 0,
    error := false, tests := [] }

/-- Example root suite of session B: 5 tests, 0 failed, 2 skipped. -/
def suiteB : Suite :=
  { name := "b", sessionId := "B", hasParent := false,
    numTests := 5, numFailedTests := 0, numSkippedTests := 2,
    error := false, tests := [] }

/-- A nested suite (has a parent), for the no-state-change case. -/
def suiteChild : Suite :=
  { name := "child", sessionId := "A", hasParent := true,
    numTests := 3, numFailedTests := 0, numSkippedTests := 0,
    error := false, tests := [] }

/-- A root suite with zero failed tests whose only child is a test leaf
carrying a terminal error. -/
def suiteLeafError : Suite :=
  { name := "root", sessionId := "A", hasParent := false,
    numTests := 1, numFailedTests := 0, numSkippedTests := 0,
    error := false, tests := [.test true] }

/-- Snapshot with count 3 for file X. -/
def covX3 : Cov := fun k => if k = "X" then 3 else 0

/-- Prior artifact with count 5 for file X. -/
def covX5 : Cov := fun k => if k = "X" then 5 else 0

/-- The two-session run of the totals example. -/
def eventsC2 : List Event := [.suiteStart suiteA, .suiteStart suiteB]

/-- The state after eventsC2 from a fresh non-client reporter. -/
def stC2 : ReporterState :=
  { mode := "runner", filename := DEFAULT_COVERAGE_FILENAME, collector := covZero,
    errors := [],
    sessions := [("A", { suite := suiteA, coverage := false }),
                 ("B", { suite := suiteB, coverage := false })],
    hasErrors := false }

/-- A run registering session A and delivering one snapshot for it. -/
def eventsC1 : List Event := [.suiteStart suiteA, .coverage "A" covX3]

/-- The state after eventsC1 from a fresh non-client reporter with the
default output path. -/
def stC1 : ReporterState :=
  { mode := "runner", filename := DEFAULT_COVERAGE_FILENAME,
    collector := covAdd covZero covX3,
    errors := [],
    sessions := [("A", { suite := suiteA, coverage := true })],
    hasErrors := false }

/-- Disk holding a prior artifact (count 5 for X) at the default name. -/
def diskPriorDefault : Disk :=
  fun p => if p = DEFAULT_COVERAGE_FILENAME then some (.coverage covX5) else none

/-- Disk holding the prior artifact at custom.json only. -/
def diskPriorCustom : Disk :=
  fun p => if p = "custom.json" then some (.coverage covX5) else none

/-- An empty filesystem. -/
def diskEmpty : Disk := fun _ => none

/-- Disk with malformed data at the default name only. -/
def diskMalformedDefault : Disk :=
  fun p => if p = DEFAULT_COVERAGE_FILENAME then some .malformed else none

/-- Disk with malformed data at custom.json only. -/
def diskMalformedCustom : Disk :=
  fun p => if p = "custom.json" then some .malformed else none

/-- A reporter configured with a non-default output path, holding one
snapshot. -/
def stCustom3 : ReporterState :=
  { mode := "runner", filename := "custom.json", collector := covX3,
    errors := [], sessions := [], hasErrors := false }

/-- A reporter with the default output path, holding one snapshot. -/
def stDefault3 : ReporterState :=
  { mode := "runner", filename := DEFAULT_COVERAGE_FILENAME, collector := covX3,
    errors := [], sessions := [], hasErrors := false }

/-- A fresh client-mode reporter (no sessions registered). -/
def stClientEmpty : ReporterState := initState "client" DEFAULT_COVERAGE_FILENAME

/-- A fresh non-client reporter. -/
def stEmptyRunner : ReporterState := initState "runner" DEFAULT_COVERAGE_FILENAME

/-- A non-client reporter with session A registered. -/
def stRunnerA : ReporterState :=
  { mode := "runner", filename := DEFAULT_COVERAGE_FILENAME, collector := covZero,
    errors := [], sessions := [("A", { suite := suiteA, coverage := false })],
    hasErrors := false }

/-- Two failures of the same test id in session A, different deliveries. -/
def tFail1 : Test := { id := "t1", sessionId := "A", timeElapsed := 100, error := "boom" }

/-- The retry failure of the same test id. -/
def tFail2 : Test := { id := "t1", sessionId := "A", timeElapsed := 250, error := "boom again" }

/-- A run in which the same test id fails twice. -/
def eventsC6 : List Event := [.testFail tFail1, .testPass, .testFail tFail2]

/-- The state after eventsC6 from a fresh non-client reporter. -/
def stC6 : ReporterState :=
  { mode := "runner", filename := DEFAULT_COVERAGE_FILENAME, collector := covZero,
    errors := [("A", [entryOfTest tFail1, entryOfTest tFail2])],
    sessions := [], hasErrors := false }

/-- A reporter whose host signalled a fatal run error, zero tests. -/
def stFatal : ReporterState :=
  { mode := "runner", filename := DEFAULT_COVERAGE_FILENAME, collector := covZero,
    errors := [], sessions := [], hasErrors := true }

/-- A reporter with only session B (zero failures) and no fatal flag. -/
def stGreen : ReporterState :=
  { mode := "runner", filename := DEFAULT_COVERAGE_FILENAME, collector := covZero,
    errors := [], sessions := [("B", { suite := suiteB, coverage := false })],
    hasErrors := false }


/-- The generalization of renderedFor to a raw ledger list. -/
def renderedList (l : List (String × List ErrorEntry)) (s : String) : List ErrorEntry :=
  (l.flatMap (fun p => p.2.map (fun e => (p.1, e)))).filterMap
    (fun q => if q.1 = s then some q.2 else none)

/-- The per-file contribution of one event to the collector, as accepted
by the coverage guard (which reads only the mode and the identifier). -/
def stepCov (mode : String) (e : Event) (k : String) : Nat :=
  match e with
  | .coverage sid c => if mode = "client" ∨ sid ≠ "" then c k else 0
  | _ => 0

/-- The ledger entries one event appends for a session. -/
def stepFail (e : Event) (s : String) : List ErrorEntry :=
  match e with
  | .testFail t => if t.sessionId = s then [entryOfTest t] else []
  | _ => []

theorem lookupA_insertA_self {α : Type} (l : List (String × α)) (k : String) (v : α) :
    lookupA (insertA l k v) k = some v := by
  induction l with
  | nil => simp [insertA, lookupA]
  | cons p t ih =>
    obtain ⟨k', v'⟩ := p
    by_cases h : k' = k
    · simp [insertA, h, lookupA]
    · simp [insertA, h, lookupA, ih]

theorem lookupA_insertA_ne {α : Type} (l : List (String × α)) (k x : String) (v : α)
    (h : x ≠ k) : lookupA (insertA l k v) x = lookupA l x := by
  induction l with
  | nil => simp [insertA, lookupA, Ne.symm h]
  | cons p t ih =>
    obtain ⟨k', v'⟩ := p
    by_cases hk : k' = k
    · subst hk; simp [insertA, lookupA, Ne.symm h]
    · simp [insertA, hk, lookupA, ih]

theorem mem_keys_insertA {α : Type} (l : List (String × α)) (k x : String) (v : α) :
    x ∈ (insertA l k v).map Prod.fst ↔ x ∈ l.map Prod.fst ∨ x = k := by
  induction l with
  | nil => simp [insertA]
  | cons p t ih =>
    obtain ⟨k', v'⟩ := p
    by_cases hk : k' = k
    · subst hk; simp [insertA]; tauto
    · simp [insertA, hk, ih]; tauto

theorem nodup_keys_insertA {α : Type} (l : List (String × α)) (k : String) (v : α)
    (h : (l.map Prod.fst).Nodup) : ((insertA l k v).map Prod.fst).Nodup := by
  induction l with
  | nil => simp [insertA]
  | cons p t ih =>
    obtain ⟨k', v'⟩ := p
    simp only [List.map_cons, List.nodup_cons] at h
    by_cases hk : k' = k
    · subst hk; simpa [insertA] using h
    · simp only [insertA, hk, if_false, List.map_cons, List.nodup_cons]
      refine ⟨?_, ih h.2⟩
      rw [mem_keys_insertA]
      rintro (hmem | heq)
      · exact h.1 hmem
      · exact hk heq

theorem lookupA_pushError_self (l : List (String × List ErrorEntry)) (k : String)
    (e : ErrorEntry) :
    lookupA (pushError l k e) k = some ((lookupA l k).getD [] ++ [e]) := by
  induction l with
  | nil => simp [pushError, lookupA]
  | cons p t ih =>
    obtain ⟨k', es⟩ := p
    by_cases h : k' = k
    · subst h; simp [pushError, lookupA]
    · simp [pushError, lookupA, h, ih]

theorem lookupA_pushError_ne (l : List (String × List ErrorEntry)) (k x : String)
    (e : ErrorEntry) (h : x ≠ k) :
    lookupA (pushError l k e) x = lookupA l x := by
  induction l with
  | nil => simp [pushError, lookupA, Ne.symm h]
  | cons p t ih =>
    obtain ⟨k', es⟩ := p
    by_cases hk : k' = k
    · subst hk; simp [pushError, lookupA, Ne.symm h]
    · simp [pushError, hk, lookupA, ih]

theorem mem_keys_pushError (l : List (String × List ErrorEntry)) (k x : String)
    (e : ErrorEntry) :
    x ∈ (pushError l k e).map Prod.fst ↔ x ∈ l.map Prod.fst ∨ x = k := by
  induction l with
  | nil => simp [pushError]
  | cons p t ih =>
    obtain ⟨k', es⟩ := p
    by_cases hk : k' = k
    · subst hk; simp [pushError]; tauto
    · simp [pushError, hk, ih]; tauto

theorem nodup_keys_pushError (l : List (String × List ErrorEntry)) (k : String)
    (e : ErrorEntry) (h : (l.map Prod.fst).Nodup) :
    ((pushError l k e).map Prod.fst).Nodup := by
  induction l with
  | nil => simp [pushError]
  | cons p t ih =>
    obtain ⟨k', es⟩ := p
    simp only [List.map_cons, List.nodup_cons] at h
    by_cases hk : k' = k
    · subst hk; simpa [pushError] using h
    · simp only [pushError, hk, if_false, List.map_cons, List.nodup_cons]
      refine ⟨?_, ih h.2⟩
      rw [mem_keys_pushError]
      rintro (hmem | heq)
      · exact h.1 hmem
      · exact hk heq

theorem lookupA_eq_none_of_not_mem {α : Type} (l : List (String × α)) (x : String)
    (h : x ∉ l.map Prod.fst) : lookupA l x = none := by
  induction l with
  | nil => rfl
  | cons p t ih =>
    obtain ⟨k, v⟩ := p
    simp only [List.map_cons, List.mem_cons] at h
    push_neg at h
    simp [lookupA, Ne.symm h.1, ih h.2]

theorem renderedList_eq_nil_of_not_mem (l : List (String × List ErrorEntry)) (s : String)
    (h : s ∉ l.map Prod.fst) : renderedList l s = [] := by
  induction l with
  | nil => rfl
  | cons p t ih =>
    obtain ⟨k, es⟩ := p
    simp only [List.map_cons, List.mem_cons] at h
    push_neg at h
    simp only [renderedList, List.flatMap_cons, List.filterMap_append] at *
    rw [List.filterMap_map]
    simp [Function.comp, Ne.symm h.1, ih h.2]

theorem renderedList_eq (l : List (String × List ErrorEntry)) (s : String)
    (h : (l.map Prod.fst).Nodup) : renderedList l s = (lookupA l s).getD [] := by
  induction l with
  | nil => rfl
  | cons p t ih =>
    obtain ⟨k, es⟩ := p
    simp only [List.map_cons, List.nodup_cons] at h
    simp only [renderedList, List.flatMap_cons, List.filterMap_append] at *
    rw [List.filterMap_map]
    by_cases hk : k = s
    · subst hk
      have ht : renderedList t k = [] :=
        renderedList_eq_nil_of_not_mem t k h.1
      simp only [renderedList] at ht
      simp [Function.comp_def, lookupA, ht, List.filterMap_some]
    · simp [Function.comp_def, hk, lookupA, ih h.2]

theorem endsWithFatal_append (pre : String) :
    endsWithFatal (pre ++ fatalSuffix) = true := by
  unfold endsWithFatal
  rw [String.data_append]
  exact List.isSuffixOf_iff_suffix.mpr (List.suffix_append _ _)

theorem not_endsWithFatal_tail (pre tail : String)
    (h1 : ¬ tail.data <:+ fatalSuffix.data)
    (h2 : ¬ fatalSuffix.data <:+ tail.data) :
    endsWithFatal (pre ++ tail) = false := by
  unfold endsWithFatal
  rw [String.data_append]
  cases hb : List.isSuffixOf fatalSuffix.data (pre.data ++ tail.data) with
  | false => rfl
  | true =>
    exfalso
    have hf : fatalSuffix.data <:+ pre.data ++ tail.data :=
      List.isSuffixOf_iff_suffix.mp hb
    have ht : tail.data <:+ pre.data ++ tail.data := List.suffix_append _ _
    rcases List.suffix_or_suffix_of_suffix hf ht with hx | hx
    · exact h2 hx
    · exact h1 hx

theorem foldl_totalsStep (l : List (String × SessionEntry)) (t₀ : Totals) :
    l.foldl totalsStep t₀
      = { numEnvironments := t₀.numEnvironments + l.length,
          numTests := t₀.numTests + (l.map fun p => p.2.suite.numTests).sum,
          numFailedTests := t₀.numFailedTests + (l.map fun p => p.2.suite.numFailedTests).sum,
          numSkippedTests := t₀.numSkippedTests + (l.map fun p => p.2.suite.numSkippedTests).sum } := by
  induction l generalizing t₀ with
  | nil => simp
  | cons p t ih =>
    rw [List.foldl_cons, ih]
    simp only [totalsStep, List.map_cons, List.sum_cons, List.length_cons, Totals.mk.injEq]
    refine ⟨by omega, by omega, by omega, by omega⟩

theorem sumAccepted_nil (mode : String) (k : String) : sumAccepted mode [] k = 0 := rfl

theorem sumAccepted_cons (mode : String) (e : Event) (es : List Event) (k : String) :
    sumAccepted mode (e :: es) k = stepCov mode e k + sumAccepted mode es k := by
  cases e with
  | coverage sid c =>
    by_cases hc : mode = "client" ∨ sid ≠ ""
    · simp [sumAccepted, stepCov, hc, List.filterMap_cons]
    · simp [sumAccepted, stepCov, hc, List.filterMap_cons]
  | suiteStart s => simp [sumAccepted, stepCov, List.filterMap_cons]
  | suiteEnd s => simp [sumAccepted, stepCov, List.filterMap_cons]
  | testPass => simp [sumAccepted, stepCov, List.filterMap_cons]
  | testSkip => simp [sumAccepted, stepCov, List.filterMap_cons]
  | testFail t => simp [sumAccepted, stepCov, List.filterMap_cons]

theorem failEntriesOf_nil (s : String) : failEntriesOf [] s = [] := rfl

theorem failEntriesOf_cons (e : Event) (es : List Event) (s : String) :
    failEntriesOf (e :: es) s = stepFail e s ++ failEntriesOf es s := by
  cases e with
  | testFail t =>
    by_cases ht : t.sessionId = s
    · simp [failEntriesOf, stepFail, ht, List.filterMap_cons]
    · simp [failEntriesOf, stepFail, ht, List.filterMap_cons]
  | suiteStart s' => simp [failEntriesOf, stepFail, List.filterMap_cons]
  | suiteEnd s' => simp [failEntriesOf, stepFail, List.filterMap_cons]
  | testPass => simp [failEntriesOf, stepFail, List.filterMap_cons]
  | testSkip => simp [failEntriesOf, stepFail, List.filterMap_cons]
  | coverage sid c => simp [failEntriesOf, stepFail, List.filterMap_cons]

theorem applyEvent_ok_spec (st₀ : ReporterState) (e : Event) (st₁ : ReporterState)
    (h : applyEvent st₀ e = .ok st₁) :
    st₁.mode = st₀.mode ∧ st₁.filename = st₀.filename ∧ st₁.hasErrors = st₀.hasErrors ∧
    (∀ k, st₁.collector k = st₀.collector k + stepCov st₀.mode e k) ∧
    (∀ s, errorsFor st₁ s = errorsFor st₀ s ++ stepFail e s) ∧
    ((errKeys st₀).Nodup → (errKeys st₁).Nodup) ∧
    ((sessionKeys st₀).Nodup → (sessionKeys st₁).Nodup) := by
  cases e with
  | suiteStart s =>
    simp only [applyEvent, Except.ok.injEq] at h
    subst h
    unfold suiteStart
    by_cases hp : s.hasParent
    · simp [hp, stepCov, stepFail]
    · rw [if_neg hp]
      refine ⟨rfl, rfl, rfl, by simp [stepCov], by simp [errorsFor, stepFail], id, ?_⟩
      intro hn
      exact nodup_keys_insertA _ _ _ hn
  | suiteEnd s =>
    simp only [applyEvent, Except.ok.injEq] at h
    subst h
    simp [stepCov, stepFail]
  | testPass =>
    simp only [applyEvent, Except.ok.injEq] at h
    subst h
    simp [stepCov, stepFail]
  | testSkip =>
    simp only [applyEvent, Except.ok.injEq] at h
    subst h
    simp [stepCov, stepFail]
  | testFail t =>
    simp only [applyEvent, Except.ok.injEq] at h
    subst h
    unfold testFail
    refine ⟨rfl, rfl, rfl, by simp [stepCov], ?_, ?_, id⟩
    · intro s
      unfold errorsFor stepFail
      by_cases hs : t.sessionId = s
      · subst hs
        simp [lookupA_pushError_self]
      · simp [lookupA_pushError_ne _ _ _ _ (Ne.symm hs), hs]
    · intro hn
      exact nodup_keys_pushError _ _ _ hn
  | coverage sid c =>
    simp only [applyEvent] at h
    unfold coverage at h
    by_cases hc : st₀.mode = "client" ∨ sid ≠ ""
    · rw [if_pos hc] at h
      cases hl : lookupA st₀.sessions sid with
      | none => rw [hl] at h; exact absurd h (by simp)
      | some entry =>
        rw [hl] at h
        simp only [Except.ok.injEq] at h
        subst h
        refine ⟨rfl, rfl, rfl, ?_, by simp [errorsFor, stepFail], id, ?_⟩
        · intro k
          simp [covAdd, stepCov, hc]
        · intro hn
          exact nodup_keys_insertA _ _ _ hn
    · rw [if_neg hc] at h
      simp only [Except.ok.injEq] at h
      subst h
      simp [stepCov, stepFail, hc]

theorem processList_ok_spec (es : List Event) (st₀ st : ReporterState)
    (h : processList es st₀ = .ok st) :
    st.mode = st₀.mode ∧ st.filename = st₀.filename ∧ st.hasErrors = st₀.hasErrors ∧
    (∀ k, st.collector k = st₀.collector k + sumAccepted st₀.mode es k) ∧
    (∀ s, errorsFor st s = errorsFor st₀ s ++ failEntriesOf es s) ∧
    ((errKeys st₀).Nodup → (errKeys st).Nodup) ∧
    ((sessionKeys st₀).Nodup → (sessionKeys st).Nodup) := by
  induction es generalizing st₀ with
  | nil =>
    simp only [processList, Except.ok.injEq] at h
    subst h
    simp [sumAccepted_nil, failEntriesOf_nil]
  | cons e es ih =>
    simp only [processList] at h
    cases ha : applyEvent st₀ e with
    | error u => rw [ha] at h; exact absurd h (by simp)
    | ok st₁ =>
      rw [ha] at h
      obtain ⟨m1, f1, h1, c1, e1, k1, s1⟩ := applyEvent_ok_spec st₀ e st₁ ha
      obtain ⟨m2, f2, h2, c2, e2, k2, s2⟩ := ih st₁ h
      refine ⟨m2.trans m1, f2.trans f1, h2.trans h1, ?_, ?_, fun hn => k2 (k1 hn),
        fun hn => s2 (s1 hn)⟩
      · intro k
        rw [sumAccepted_cons, c2 k, c1 k, m1]
        omega
      · intro s
        rw [failEntriesOf_cons, e2 s, e1 s, List.append_assoc]

/-- Claim C4 (amended): during finalization, when the file at the well-known
default path is absent or unreadable, reconciliation is a silent no-op —
no error is raised, nothing is merged from disk, and the run completes by
writing the report of the collected snapshots — and this holds for every
configured output path.  (As stated, the claim keys the no-op on the
configured artifact path; the code keys it on the default path, see
c4_counterexample.) -/
theorem c4_silent_noop_default_absent (st : ReporterState) (disk : Disk)
    (h : disk DEFAULT_COVERAGE_FILENAME = none) :
    writeCoverage st disk = .ok (diskWrite disk st.filename (.coverage st.collector)) := by
  unfold writeCoverage
  rw [h]
  simp

/-- Witness for c4_silent_noop_default_absent: a reporter configured with
a non-default output path on an empty filesystem finalizes successfully. -/
theorem c4_silent_noop_default_absent_witness :
    writeCoverage stCustom3 diskEmpty
      = .ok (diskWrite diskEmpty "custom.json" (.coverage covX3)) :=
  c4_silent_noop_default_absent stCustom3 diskEmpty rfl

/-- Claim C4 (counterexample to the claim as stated): with output path
custom.json, the configured artifact file absent, and a readable file at
the default name, finalization is not a silent no-op — the read of the
configured file throws and the final report is never written. -/
theorem c4_counterexample :
    wcResult (writeCoverage stCustom3 diskPriorDefault) = some WriteError.readError := by
  decide

/-- Claim C8 (amended): during finalization, provided the file at the
well-known default name is readable (always the case in the default
configuration, where the configured path is the default name), a prior
artifact at the configured path that is present but not valid structured
data makes parsing fail fatally; the failure propagates and the final
report write does not occur. -/
theorem c8_malformed_fatal (st : ReporterState) (disk : Disk)
    (h1 : (disk DEFAULT_COVERAGE_FILENAME).isSome = true)
    (h2 : disk st.filename = some FileContent.malformed) :
    wcResult (writeCoverage st disk) = some WriteError.parseError := by
  unfold writeCoverage
  rw [h1, h2]
  simp [wcResult]

/-- Witness for c8_malformed_fatal: default configuration, malformed
artifact at the default name. -/
theorem c8_malformed_fatal_witness :
    wcResult (writeCoverage stDefault3 diskMalformedDefault) = some WriteError.parseError :=
  c8_malformed_fatal stDefault3 diskMalformedDefault rfl rfl

/-- Claim C8 (counterexample to the claim as stated): with output path
custom.json holding malformed data and nothing at the default name, the
malformed artifact is never parsed — no fatal failure, and the final
report write does occur (count 3 for X from the collector). -/
theorem c8_counterexample :
    wcResult (writeCoverage stCustom3 diskMalformedCustom) = none ∧
    finalizeCounts stCustom3 diskMalformedCustom "X" = some 3 := by
  decide

/-- Claim C5 (amended): a coverage(sessionId, snapshot) call is accepted —
merged into the accumulator and the owning session marked as having
coverage — exactly when the mode is client or sessionId is non-empty,
provided a session is registered under that identifier; when the guard
rejects the call (empty id outside client mode), no state changes and no
error is raised.  (As stated, the claim omits the registration proviso;
see c5_counterexample.) -/
theorem c5_accept_iff_guard_registered (st : ReporterState) (sid : String) (c : Cov) :
    ((st.mode = "client" ∨ sid ≠ "") → ∀ entry, lookupA st.sessions sid = some entry →
      coverage st sid c
        = .ok { st with
                  sessions := insertA st.sessions sid { entry with coverage := true },
                  collector := covAdd st.collector c }) ∧
    (¬(st.mode = "client" ∨ sid ≠ "") → coverage st sid c = .ok st) := by
  constructor
  · intro hc entry hl
    unfold coverage
    rw [if_pos hc, hl]
  · intro hc
    unfold coverage
    rw [if_neg hc]

/-- Witness for c5_accept_iff_guard_registered: an accepted call with a
registered session merges and marks; a rejected call leaves the state
untouched and raises nothing. -/
theorem c5_accept_iff_guard_registered_witness :
    coverage stRunnerA "A" covX3
      = .ok { stRunnerA with
                sessions := insertA stRunnerA.sessions "A" { suite := suiteA, coverage := true },
                collector := covAdd stRunnerA.collector covX3 } ∧
    coverage stRunnerA "" covX3 = .ok stRunnerA := by
  constructor
  · exact (c5_accept_iff_guard_registered stRunnerA "A" covX3).1 (Or.inr (by decide))
      { suite := suiteA, coverage := false } rfl
  · exact (c5_accept_iff_guard_registered stRunnerA "" covX3).2 (by decide)

/-- Claim C5 (counterexample to the claim as stated): in client mode with no
registered session, the guard accepts the call (mode is client), yet the
snapshot is not merged — the handler throws instead. -/
theorem c5_counterexample :
    stClientEmpty.mode = "client" ∧ coverage stClientEmpty "" covX3 = .error () :=
  ⟨rfl, rfl⟩

/-- Claim C10: a coverage call taken by the accepted branch (client mode or
non-empty identifier) before any root suiteStart registered a session
under that identifier throws — the missing session entry is dereferenced
— and the snapshot is never merged into the accumulator (the handler
aborts with no successor state). -/
theorem c10_unregistered_session_error (st : ReporterState) (sid : String) (c : Cov)
    (hc : st.mode = "client" ∨ sid ≠ "") (hl : lookupA st.sessions sid = none) :
    coverage st sid c = .error () ∧ applyEvent st (.coverage sid c) = .error () := by
  have h : coverage st sid c = .error () := by
    unfold coverage
    rw [if_pos hc, hl]
  exact ⟨h, h⟩

/-- Witness for c10_unregistered_session_error: a fresh client-mode
reporter receiving coverage before any suite started. -/
theorem c10_unregistered_session_error_witness :
    coverage stClientEmpty "" covX3 = .error () ∧
    applyEvent stClientEmpty (.coverage "" covX3) = .error () :=
  c10_unregistered_session_error stClientEmpty "" covX3 (Or.inl rfl) rfl

/-- Claim C9: for every parentless suite, suiteStart (re-)registers the session
entry for the suite's identifier by overwriting any existing entry, never
raising an error (the handler is total); the informational line naming
the session is emitted exactly when the identifier is non-empty; and
suiteStart for a suite with a parent changes no state and prints
nothing. -/
theorem c9_suiteStart_register (st : ReporterState) (s : Suite) :
    applyEvent st (.suiteStart s) = .ok (suiteStart st s) ∧
    (s.hasParent = false →
      suiteStart st s
        = { st with sessions := insertA st.sessions s.sessionId { suite := s, coverage := false } } ∧
      lookupA (suiteStart st s).sessions s.sessionId = some { suite := s, coverage := false } ∧
      (∀ k, k ≠ s.sessionId → lookupA (suiteStart st s).sessions k = lookupA st.sessions k) ∧
      (suiteStartOutput s ≠ [] ↔ s.sessionId ≠ "")) ∧
    (s.hasParent = true → suiteStart st s = st ∧ suiteStartOutput s = []) := by
  refine ⟨rfl, ?_, ?_⟩
  · intro hp
    have hs : suiteStart st s
        = { st with sessions := insertA st.sessions s.sessionId { suite := s, coverage := false } } := by
      unfold suiteStart
      rw [hp]
      simp
    refine ⟨hs, ?_, ?_, ?_⟩
    · rw [hs]
      exact lookupA_insertA_self _ _ _
    · intro k hk
      rw [hs]
      exact lookupA_insertA_ne _ _ _ _ hk
    · unfold suiteStartOutput
      rw [hp]
      by_cases hid : s.sessionId = ""
      · simp [hid]
      · simp [hid]
  · intro hp
    constructor
    · unfold suiteStart
      rw [hp]
      simp
    · unfold suiteStartOutput
      rw [hp]
      simp

/-- Witness for c9_suiteStart_register: registering root suite A in a
fresh non-client reporter, and a child suite leaving it unchanged. -/
theorem c9_suiteStart_register_witness :
    (suiteStart stEmptyRunner suiteA
      = { stEmptyRunner with
            sessions := insertA stEmptyRunner.sessions suiteA.sessionId
              { suite := suiteA, coverage := false } }) ∧
    lookupA (suiteStart stEmptyRunner suiteA).sessions suiteA.sessionId
      = some { suite := suiteA, coverage := false } ∧
    (suiteStartOutput suiteA ≠ [] ↔ suiteA.sessionId ≠ "") ∧
    suiteStart stEmptyRunner suiteChild = stEmptyRunner ∧
    suiteStartOutput suiteChild = [] := by
  have h1 := (c9_suiteStart_register stEmptyRunner suiteA).2.1 rfl
  have h2 := (c9_suiteStart_register stEmptyRunner suiteChild).2.2 rfl
  exact ⟨h1.1, h1.2.1, h1.2.2.2, h2.1, h2.2⟩

/-- Claim C1 (amended): in the default configuration — the configured output
path is the well-known default name — the finalized coverage artifact
contains the union of the readable, well-formed artifact already on disk
before the run and every snapshot the run delivers through the accepted
coverage branch: for each file key, the final count is the sum of the
accepted snapshot counts and the prior count.  (As stated, the claim
fails for a non-default output path because the existence check always
probes the default name; see c1_counterexample.) -/
theorem c1_union_default_config (mode : String) (es : List Event) (st : ReporterState)
    (disk : Disk) (prior : Cov) (k : String)
    (h : processList es (initState mode DEFAULT_COVERAGE_FILENAME) = .ok st)
    (hd : disk DEFAULT_COVERAGE_FILENAME = some (FileContent.coverage prior)) :
    finalizeCounts st disk k = some (sumAccepted mode es k + prior k) := by
  obtain ⟨hm, hf, -, hcol, -, -, -⟩ := processList_ok_spec es _ _ h
  simp only [initState] at hm hf hcol
  have hone : writeCoverage st disk
      = .ok (diskWrite disk DEFAULT_COVERAGE_FILENAME (.coverage (covAdd st.collector prior))) := by
    unfold writeCoverage
    rw [hf, hd]
    simp
  unfold finalizeCounts
  rw [hone, hf]
  simp only [diskWrite, eq_self_iff_true, if_true, covAdd, Option.some.injEq]
  have hc := hcol k
  simp only [covZero] at hc
  omega

/-- Witness for c1_union_default_config: prior artifact count 5 for X on
disk, snapshot count 3 for X delivered during the run, finalized report
shows 8 for X. -/
theorem c1_union_default_config_witness :
    finalizeCounts stC1 diskPriorDefault "X" = some 8 := by
  have h := c1_union_default_config "runner" eventsC1 stC1 diskPriorDefault covX5 "X" rfl rfl
  rw [h]
  decide

/-- Claim C1 (counterexample to the claim as stated): output path custom.json,
prior artifact with count 5 for X at that path, snapshot with count 3 for
X delivered during the run — the finalized report shows 3, not 8, because
the existence check probes only the default name, which is absent. -/
theorem c1_counterexample :
    finalizeCountsOf "runner" "custom.json" eventsC1 diskPriorCustom "X" = some 3 ∧
    finalizeCountsOf "runner" "custom.json" eventsC1 diskPriorCustom "X" ≠ some 8 := by
  decide

/-- Claim C2: after any sequence of delivered events, the runEnd totals count
each registered session exactly once — the registry's keys are distinct,
the environment count is the registry size, and the total, failed and
skipped counts are the sums of each registered session's root-suite
counters; and the two-session example (A: 10 tests/1 failed/0 skipped,
B: 5 tests/0 failed/2 skipped) renders the totals line
"TOTAL: tested 2 platforms, 1/15 failed (2 skipped)". -/
theorem c2_runEnd_totals :
    (∀ (mode fn : String) (es : List Event) (st : ReporterState),
      processList es (initState mode fn) = .ok st →
      (sessionKeys st).Nodup ∧
      (runEndTotals st).numEnvironments = st.sessions.length ∧
      (runEndTotals st).numTests = (st.sessions.map fun p => p.2.suite.numTests).sum ∧
      (runEndTotals st).numFailedTests
        = (st.sessions.map fun p => p.2.suite.numFailedTests).sum ∧
      (runEndTotals st).numSkippedTests
        = (st.sessions.map fun p => p.2.suite.numSkippedTests).sum) ∧
    runMessageOf "runner" DEFAULT_COVERAGE_FILENAME eventsC2
      = "\nTOTAL: tested 2 platforms, 1/15 failed (2 skipped)" := by
  constructor
  · intro mode fn es st h
    obtain ⟨-, -, -, -, -, -, hsn⟩ := processList_ok_spec es _ _ h
    refine ⟨hsn (by simp [sessionKeys, initState]), ?_, ?_, ?_, ?_⟩ <;>
      · rw [runEndTotals, foldl_totalsStep]
        simp
  · decide

/-- Witness for c2_runEnd_totals: the totals facts instantiated on the
state reached by the two-session example run. -/
theorem c2_runEnd_totals_witness :
    (sessionKeys stC2).Nodup ∧
    (runEndTotals stC2).numEnvironments = stC2.sessions.length ∧
    (runEndTotals stC2).numTests = (stC2.sessions.map fun p => p.2.suite.numTests).sum ∧
    (runEndTotals stC2).numFailedTests
      = (stC2.sessions.map fun p => p.2.suite.numFailedTests).sum ∧
    (runEndTotals stC2).numSkippedTests
      = (stC2.sessions.map fun p => p.2.suite.numSkippedTests).sum :=
  c2_runEnd_totals.1 "runner" DEFAULT_COVERAGE_FILENAME eventsC2 stC2 rfl

/-- Claim C6: after any sequence of delivered events, the Error Ledger of each
session contains exactly the failed tests reported for that session, in
arrival order, never deduplicated, and the entries rendered at run end
for that session are exactly those ledger entries in the same order. -/
theorem c6_error_ledger (mode fn : String) (es : List Event) (st : ReporterState)
    (s : String) (h : processList es (initState mode fn) = .ok st) :
    errorsFor st s = failEntriesOf es s ∧ renderedFor st s = failEntriesOf es s := by
  obtain ⟨-, -, -, -, herr, hnk, -⟩ := processList_ok_spec es _ _ h
  have h1 : errorsFor st s = failEntriesOf es s := by
    have h2 := herr s
    simpa [errorsFor, initState, lookupA] using h2
  refine ⟨h1, ?_⟩
  have hkeys : (st.errors.map Prod.fst).Nodup := hnk (by simp [errKeys, initState])
  have h3 : renderedFor st s = renderedList st.errors s := rfl
  rw [h3, renderedList_eq st.errors s hkeys]
  exact h1

/-- Witness for c6_error_ledger: the same test id failing twice in one
session yields two distinct ledger entries, both rendered, in arrival
order. -/
theorem c6_error_ledger_witness :
    errorsFor stC6 "A" = [entryOfTest tFail1, entryOfTest tFail2] ∧
    renderedFor stC6 "A" = [entryOfTest tFail1, entryOfTest tFail2] := by
  have h := c6_error_ledger "runner" DEFAULT_COVERAGE_FILENAME eventsC6 stC6 "A" rfl
  refine ⟨?_, ?_⟩
  · rw [h.1]
    decide
  · rw [h.2]
    decide

/-- Claim C7: when the global fatal-error flag is set the runEnd totals line
takes the failure-coloured branch, and — when the failed-test count is
zero — carries the fatal suffix; when the flag is unset and the
failed-test count is zero, the line is green and carries no such
suffix. -/
theorem c7_fatal_flag_rendering (st : ReporterState) :
    (st.hasErrors = true → runEndRed st = true) ∧
    (st.hasErrors = true → (runEndTotals st).numFailedTests = 0 →
      endsWithFatal (runEndMessage st) = true) ∧
    (st.hasErrors = false → (runEndTotals st).numFailedTests = 0 →
      runEndRed st = false ∧ endsWithFatal (runEndMessage st) = false) := by
  refine ⟨?_, ?_, ?_⟩
  · intro he
    simp [runEndRed, he]
  · intro he h0
    simp [runEndMessage, he, h0, endsWithFatal_append]
  · intro he h0
    constructor
    · simp [runEndRed, he, h0]
    · simp only [runEndMessage, he, h0, Bool.false_eq_true, false_and, if_false]
      split
      · exact not_endsWithFatal_tail _ " skipped)" (by decide) (by decide)
      · exact not_endsWithFatal_tail _ " failed" (by decide) (by decide)

/-- Witness for c7_fatal_flag_rendering: a zero-test run with the fatal
flag set is red with the suffix; a zero-failure run without the flag is
green without it. -/
theorem c7_fatal_flag_rendering_witness :
    runEndRed stFatal = true ∧
    endsWithFatal (runEndMessage stFatal) = true ∧
    runEndRed stGreen = false ∧
    endsWithFatal (runEndMessage stGreen) = false := by
  have h1 := c7_fatal_flag_rendering stFatal
  have h2 := c7_fatal_flag_rendering stGreen
  exact ⟨h1.1 rfl, h1.2.1 rfl rfl, (h2.2.2 rfl rfl).1, (h2.2.2 rfl rfl).2⟩

/-- Claim C3 (amended): for a root suite rendered by suiteEnd in non-client,
session-bearing mode, the summary line ends with "; fatal error occurred"
exactly when the suite itself or a descendant suite node carries a
terminal error — the walk returns false at test leaves, so an error
carried only by a descendant test does not trigger the suffix (see
c3_counterexample). -/
theorem c3_fatal_suffix_iff_suite_error (st : ReporterState) (s : Suite)
    (hp : s.hasParent = false) (hm : st.mode ≠ "client") (hid : s.sessionId ≠ "") :
    suiteEndOutput st s = some (suiteEndSummary s) ∧
    endsWithFatal (suiteEndSummary s) = rootHasError s := by
  constructor
  · unfold suiteEndOutput
    rw [if_neg (by simp [hp, hm, hid])]
  · unfold suiteEndSummary
    cases hre : rootHasError s with
    | true => simp [hre, endsWithFatal_append]
    | false =>
      simp only [hre, Bool.false_eq_true, if_false]
      split
      · exact not_endsWithFatal_tail _ " skipped)" (by decide) (by decide)
      · exact not_endsWithFatal_tail _ " tests failed" (by decide) (by decide)

/-- Witness for c3_fatal_suffix_iff_suite_error: the gate passes on a
concrete root suite and the suffix matches the walk's verdict. -/
theorem c3_fatal_suffix_iff_suite_error_witness :
    suiteEndOutput stEmptyRunner suiteLeafError = some (suiteEndSummary suiteLeafError) ∧
    endsWithFatal (suiteEndSummary suiteLeafError) = rootHasError suiteLeafError :=
  c3_fatal_suffix_iff_suite_error stEmptyRunner suiteLeafError rfl (by decide) (by decide)

/-- Claim C3 (counterexample to the claim as stated): a root suite with zero
failed tests whose only descendant is a test leaf carrying a terminal
error is NOT reported as "fatal error occurred" — the summary line lacks
the suffix even though the claim's own condition holds. -/
theorem c3_counterexample :
    specRootHasError suiteLeafError = true ∧
    suiteLeafError.numFailedTests = 0 ∧
    suiteEndOutput stEmptyRunner suiteLeafError = some (suiteEndSummary suiteLeafError) ∧
    endsWithFatal (suiteEndSummary suiteLeafError) = false := by
  decide
